import Mathlib

/-!
Verification of the template ingestion pipeline of `template-doc-gen`.

The Go code is embedded shallowly:

* a parsed YAML/JSON value (`interface{}` in Go) becomes the inductive
  type `Value`; a `map[string]interface{}` becomes an association list
  `StrMap` (Go map iteration order is irrelevant to the proved facts);
* `Processor.ValidateTemplate` and `Processor.ExtractMetadata` from
  `pkg/template` become the pure functions `ValidateTemplate` and
  `ExtractMetadata`;
* the schema manager (`pkg/schema`) becomes `schemaTypeNormalize` /
  `GetSchema`, with the network fetch abstracted as an oracle
  `String → Except String Value`;
* `Processor.ProcessAllTemplates` becomes `ProcessAllTemplates` over a
  small filesystem record; the worker pool is sequentialized (one
  outcome per dispatched file, order immaterial).
-/

namespace TemplateDocGen

/-- A parsed document value, modelling the Go `interface{}` produced by
`yaml.Unmarshal` / `json.Unmarshal`: strings, integers (`int`), floats
(`float64`, modelled as `Rat`), booleans, sequences, string-keyed
mappings and null. -/
inductive Value where
  | vStr (s : String)
  | vInt (n : Int)
  | vFloat (q : Rat)
  | vBool (b : Bool)
  | vSeq (xs : List Value)
  | vMap (m : List (String × Value))
  | vNull

/-- A Go `map[string]interface{}`, as an association list. -/
abbrev StrMap := List (String × Value)

/-- Go map lookup `m[k]` with presence flag: first binding of `k`. -/
def mapFind (m : StrMap) (k : String) : Option Value :=
  (m.find? (fun p => p.1 == k)).map (fun p => p.2)

/-- Go type assertion `v.(string)`. -/
def Value.asStr : Value → Option String
  | .vStr s => some s
  | _ => none

/-- Go type assertion `v.(float64)`. -/
def Value.asFloat : Value → Option Rat
  | .vFloat q => some q
  | _ => none

/-- Go type assertion `v.(int)`. -/
def Value.asInt : Value → Option Int
  | .vInt n => some n
  | _ => none

/-- Go type assertion `v.(bool)`. -/
def Value.asBool : Value → Option Bool
  | .vBool b => some b
  | _ => none

/-- Go type assertion `v.([]interface{})`. -/
def Value.asSeq : Value → Option (List Value)
  | .vSeq xs => some xs
  | _ => none

/-- Go type assertion `v.(map[string]interface{})`. -/
def Value.asMap : Value → Option StrMap
  | .vMap m => some m
  | _ => none

/-- Go `strings.ToLower`, restricted to ASCII lowering: `Char.toLower`
lowers exactly the ASCII uppercase letters. This agrees with
`strings.ToLower` on every string this development applies it to —
ASCII strings, and strings whose non-ASCII runes are already lowercase
(such as "ſtage": ſ, U+017F, is a lowercase letter and is left fixed
by `strings.ToLower` too). -/
def strToLower (s : String) : String :=
  String.mk (s.data.map Char.toLower)

/-- Go `strings.HasSuffix`. -/
def hasSuffix (s suffix : String) : Bool :=
  List.isSuffixOf suffix.data s.data

/-- Unicode simple case folding as `strings.EqualFold` applies it,
canonicalizing each fold orbit that meets the ASCII range: the ASCII
uppercase letters fold to their lowercase forms, and the only two
non-ASCII members of an ASCII letter's fold orbit are folded as well —
ſ (U+017F, folding with s) and the Kelvin sign (U+212A, folding with
k). Characters whose fold orbits never meet ASCII are left fixed, so
this map is exact for every comparison in which one side is an ASCII
string (the only comparisons the program's type check performs, since
the valid type names are ASCII). -/
def foldChar (c : Char) : Char :=
  if c = Char.ofNat 0x17F then 's'
  else if c = Char.ofNat 0x212A then 'k'
  else Char.toLower c

/-- Go `strings.EqualFold`: runewise equality up to Unicode simple case
folding — equal rune counts and fold-equivalent runes position by
position. -/
def eqFold (a b : String) : Bool :=
  a.data.map foldChar == b.data.map foldChar

/-- Whether every character of the string is ASCII. -/
def strIsAscii (s : String) : Bool :=
  s.data.all (fun c => c.toNat < 128)

/-- `ValidTemplateTypes` from `pkg/template/types.go`. -/
def ValidTemplateTypes : List String :=
  ["pipeline", "stage", "stepgroup", "step"]

/-- `schemaTypeNormalize` from `pkg/schema`: a `switch` on exact
spellings; anything else falls through unchanged. -/
def schemaTypeNormalize (schemaType : String) : String :=
  if schemaType = "Pipeline" ∨ schemaType = "PIPELINE" then "pipeline"
  else if schemaType = "Stage" ∨ schemaType = "STAGE" then "stage"
  else if schemaType = "StepGroup" ∨ schemaType = "STEPGROUP" ∨ schemaType = "Step Group" then "stepgroup"
  else if schemaType = "Step" ∨ schemaType = "STEP" then "step"
  else schemaType

/-- `SchemaTypeNormalize`, the exported wrapper. -/
def SchemaTypeNormalize (schemaType : String) : String :=
  schemaTypeNormalize schemaType

/-- The `schemaMapping` table of `fetchSchema`, with its
default-to-`pipeline.json` fallback for unknown types. -/
def schemaFileFor (schemaType : String) : String :=
  if schemaType = "pipeline" then "pipeline.json"
  else if schemaType = "stage" then "template.json"
  else if schemaType = "step" then "template.json"
  else if schemaType = "stepgroup" then "template.json"
  else if schemaType = "trigger" then "trigger.json"
  else "pipeline.json"

/-- The schema cache of `SchemaManager`: normalized type name ↦ parsed
schema document. -/
abbrev SchemaCache := List (String × Value)

/-- `SchemaManager.GetSchema` with the HTTP fetch-and-parse abstracted
as the oracle `fetch` (applied to the normalized type, as `fetchSchema`
is). Returns the schema together with the updated cache; on a miss the
fetched schema is stored under the normalized key. -/
def GetSchema (fetch : String → Except String Value) (cache : SchemaCache)
    (schemaType : String) : Except String (Value × SchemaCache) :=
  let key := schemaTypeNormalize schemaType
  match mapFind cache key with
  | some s => .ok (s, cache)
  | none =>
    match fetch key with
    | .error e => .error e
    | .ok s => .ok (s, (key, s) :: cache)

/-- The schema-side environment of `ValidateTemplate`: `fetch` stands
for `schemaManager.GetSchema` (already-normalized type ↦ schema or
error), `eval` for `gojsonschema.Validate` (evaluation error, or the
list of violation descriptions; `result.Valid()` is that list being
empty). -/
structure SchemaEnv where
  fetch : String → Except String Value
  eval : Value → StrMap → Except String (List String)

/-- `Processor.ValidateTemplate`. `env = none` is a processor whose
`schemaManager` is nil. Returns the `(bool, string)` verdict/message
pair of the source. -/
def ValidateTemplate (env : Option SchemaEnv) (templateData : StrMap) : Bool × String :=
  match mapFind templateData "template" with
  | none => (false, "Missing template key")
  | some templateObj =>
    match templateObj with
    | .vMap templateMap =>
      if (mapFind templateMap "name").isNone then
        (false, "Missing required field: name")
      else if (mapFind templateMap "type").isNone then
        (false, "Missing required field: type")
      else
        match mapFind templateMap "type" with
        | some (.vStr typeStr) =>
          if ValidTemplateTypes.any (fun t => eqFold typeStr t) then
            match env with
            | some e =>
              let normalizedType := schemaTypeNormalize typeStr
              match e.fetch normalizedType with
              | .error _ => (true, "Basic validation passed (schema not available)")
              | .ok schemaData =>
                match e.eval schemaData templateData with
                | .error _ => (true, "Basic validation passed (with Harness schema inconsistency)")
                | .ok descs =>
                  if descs.isEmpty then
                    (true, "Template is valid according to Harness " ++ normalizedType ++ " schema")
                  else
                    (true, "Basic validation passed (with expected Harness schema inconsistencies)")
            | none => (true, "Template is valid (basic validation only)")
          else
            (false, "Invalid template type: " ++ typeStr ++ ". Must be one of [pipeline stage stepgroup step]")
        | _ => (false, "Type field is not a string")
    | _ => (false, "Template value is not an object")

/-- `fmt.Sprintf` with one decimal place, on the exact rational carried
by the float (the documents in question hold exactly representable
values, so binary rounding and the tie-breaking mode are immaterial). -/
def formatOneDecimal (q : Rat) : String :=
  let n : Int := Int.fdiv (20 * q.num + (q.den : Int)) (2 * (q.den : Int))
  let sign := if n < 0 then "-" else ""
  sign ++ toString (n.natAbs / 10) ++ "." ++ toString (n.natAbs % 10)

/-- `Variable` from `pkg/template/types.go`. -/
structure Variable where
  Description : String
  «Type» : String
  Required : Bool
  Scope : String

/-- `Parameter` from `pkg/template/types.go`; `Default` is the raw
entry of the sub-mapping (`none` models the Go nil interface returned
for an absent key). -/
structure Parameter where
  Description : String
  «Type» : String
  Required : Bool
  Default : Option Value
  Scope : String

/-- `TemplateMetadata` from `pkg/template/types.go`. `Variables` and
`Parameters` keep the association-list representation of Go maps. -/
structure TemplateMetadata where
  Name : String
  Identifier : String
  «Type» : String
  Description : String
  Author : String
  Version : String
  Tags : List String
  Variables : List (String × Variable)
  Parameters : List (String × Parameter)
  Examples : List String
  RawTemplate : StrMap

/-- `getStringValue`: string-typed entry of `m` at `key`, else the
default (also on a type mismatch). -/
def getStringValue (m : StrMap) (key defaultValue : String) : String :=
  match (mapFind m key).bind Value.asStr with
  | some v => v
  | none => defaultValue

/-- `getBoolValue`: bool-typed entry of `m` at `key`, else the default. -/
def getBoolValue (m : StrMap) (key : String) (defaultValue : Bool) : Bool :=
  match (mapFind m key).bind Value.asBool with
  | some v => v
  | none => defaultValue

/-- The record built by `Processor.ExtractMetadata` once the `template`
mapping has been asserted: every field starts at its placeholder and is
conditionally overwritten by a successful type assertion, as in the
source. -/
def extractFrom (templateData : StrMap) (templateObj : StrMap) : TemplateMetadata :=
      { Name :=
          match mapFind templateObj "name" with
          | some (.vStr s) => s
          | _ => "Unnamed Template"
        Identifier :=
          match mapFind templateObj "identifier" with
          | some (.vStr s) => s
          | _ => "unnamed_template"
        «Type» :=
          match mapFind templateObj "type" with
          | some (.vStr s) => strToLower s
          | _ => "unknown"
        Description :=
          match mapFind templateObj "description" with
          | some (.vStr s) => s
          | _ => ""
        Author :=
          match mapFind templateObj "author" with
          | some (.vStr s) => s
          | _ => "Harness"
        Version :=
          match mapFind templateObj "versionLabel" with
          | some (.vStr s) => s
          | some (.vFloat q) => formatOneDecimal q
          | _ => "1.0.0"
        Tags :=
          match mapFind templateObj "tags" with
          | some (.vSeq xs) => xs.filterMap Value.asStr
          | _ => []
        Variables :=
          match mapFind templateObj "variables" with
          | some (.vMap vars) =>
            vars.filterMap (fun p =>
              match p.2 with
              | .vMap varMap =>
                some (p.1,
                  ({ Description := getStringValue varMap "description" "",
                     «Type» := getStringValue varMap "type" "string",
                     Required := getBoolValue varMap "required" false,
                     Scope := getStringValue varMap "scope" "template" } : Variable))
              | _ => none)
          | _ => []
        Parameters :=
          match mapFind templateObj "parameters" with
          | some (.vMap params) =>
            params.filterMap (fun p =>
              match p.2 with
              | .vMap paramMap =>
                some (p.1,
                  ({ Description := getStringValue paramMap "description" "",
                     «Type» := getStringValue paramMap "type" "string",
                     Required := getBoolValue paramMap "required" false,
                     Default := mapFind paramMap "default",
                     Scope := getStringValue paramMap "scope" "template" } : Parameter))
              | _ => none)
          | _ => []
        Examples :=
          match mapFind templateObj "examples" with
          | some (.vSeq xs) => xs.filterMap Value.asStr
          | _ => []
        RawTemplate := templateData }

/-- `Processor.ExtractMetadata`. -/
def ExtractMetadata (templateData : StrMap) : Except String TemplateMetadata :=
  match mapFind templateData "template" with
  | some (.vMap templateObj) => .ok (extractFrom templateData templateObj)
  | _ => .error "template field is not an object or missing"

/-- Outcome of `os.Stat` on the input path. -/
inductive StatResult where
  | file
  | dir
  | statError (msg : String)

/-- The filesystem and parser boundary of the batch processor: `stat`
models `os.Stat` on the input path, `walkEntries` models a successful
or failed `filepath.Walk` (returning the non-directory paths seen),
and `readAndParse` models `os.ReadFile` followed by `yaml.Unmarshal`
for one file. -/
structure FileSys where
  stat : String → StatResult
  walkEntries : String → Except String (List String)
  readAndParse : String → Except String StrMap

/-- `Processor.ProcessTemplate`: read and parse the file, validate,
extract. (`validateOnly` only changes logging and is omitted; the
returned metadata is the same either way.) -/
def ProcessTemplate (fs : FileSys) (env : Option SchemaEnv) (templatePath : String) :
    Except String TemplateMetadata :=
  match fs.readAndParse templatePath with
  | .error e => .error e
  | .ok templateData =>
    match ValidateTemplate env templateData with
    | (true, _) => ExtractMetadata templateData
    | (false, msg) => .error ("validation failed: " ++ msg)

/-- `Processor.ProcessAllTemplates`, sequentialized: file discovery is
verbatim from the source (single-file extension gate, directory walk
filtered to `.yaml`/`.yml`); the worker pool and its result channel are
replaced by collecting the per-file outcomes in list order and keeping
the successes, which fixes one interleaving of the fan-in (the source
guarantees no order). Directory creation in non-validate-only mode does
not affect the returned value and is omitted. -/
def ProcessAllTemplates (fs : FileSys) (env : Option SchemaEnv) (templatesDir : String) :
    Except String (List TemplateMetadata) :=
  match fs.stat templatesDir with
  | .statError e => .error ("error accessing template directory: " ++ e)
  | .file =>
    if hasSuffix templatesDir ".yaml" || hasSuffix templatesDir ".yml" then
      .ok ((ProcessTemplate fs env templatesDir).toOption.toList)
    else
      .error ("specified file is not a YAML file: " ++ templatesDir)
  | .dir =>
    match fs.walkEntries templatesDir with
    | .error e => .error ("error walking template directory: " ++ e)
    | .ok entries =>
      let templateFiles := entries.filter (fun p => hasSuffix p ".yaml" || hasSuffix p ".yml")
      if templateFiles.isEmpty then
        .ok []
      else
        .ok (templateFiles.filterMap (fun f => (ProcessTemplate fs env f).toOption))

/-! ## Concrete documents and environments used as witnesses -/

/-- The inner `template` mapping of a minimal structurally valid document. -/
def pipelineObj : StrMap :=
  [("name", Value.vStr "Test Pipeline"), ("type", Value.vStr "Pipeline")]

/-- A minimal structurally valid document. -/
def pipelineDoc : StrMap :=
  [("template", Value.vMap pipelineObj)]

/-- The metadata record `ExtractMetadata` produces for `pipelineDoc`. -/
def pipelineMd : TemplateMetadata :=
  extractFrom pipelineDoc pipelineObj

/-- A schema environment whose remote fetch always fails. -/
def fetchFailEnv : SchemaEnv :=
  { fetch := fun _ => Except.error "schema fetch failed",
    eval := fun _ _ => Except.ok [] }

/-- A document whose `template` mapping is empty. -/
def emptyTemplateDoc : StrMap :=
  [("template", Value.vMap [])]

/-- The metadata record `ExtractMetadata` produces for `emptyTemplateDoc`. -/
def emptyTemplateMd : TemplateMetadata :=
  extractFrom emptyTemplateDoc []

/-! ## Helper lemmas -/

/-- The Bool component of the `ValidateTemplate` verdict is the same
under every schema environment: it is decided by the structural checks
alone. -/
theorem validate_fst_indep (env : Option SchemaEnv) (d : StrMap) :
    (ValidateTemplate env d).1 = (ValidateTemplate none d).1 := by
  unfold ValidateTemplate
  repeat' split <;> try rfl
  all_goals dsimp only
  all_goals repeat' split
  all_goals rfl

/-- Once the `template` mapping is in hand, `ExtractMetadata` succeeds
with the record `extractFrom` builds. -/
theorem extract_ok (d tm : StrMap) (h : mapFind d "template" = some (Value.vMap tm)) :
    ExtractMetadata d = Except.ok (extractFrom d tm) := by
  unfold ExtractMetadata
  rw [h]

/-- On an ASCII character the fold map is exactly ASCII lowering. -/
theorem foldChar_ascii (c : Char) (h : c.toNat < 128) : foldChar c = Char.toLower c := by
  have h1 : ¬ (c = Char.ofNat 0x17F) := by
    intro hc
    rw [hc] at h
    exact absurd h (by decide)
  have h2 : ¬ (c = Char.ofNat 0x212A) := by
    intro hc
    rw [hc] at h
    exact absurd h (by decide)
  rw [foldChar, if_neg h1, if_neg h2]

/-- On a list of ASCII characters the fold map is ASCII lowering. -/
theorem map_foldChar_ascii (l : List Char) (h : ∀ c ∈ l, c.toNat < 128) :
    l.map foldChar = l.map Char.toLower :=
  List.map_congr_left (fun c hc => foldChar_ascii c (h c hc))

/-- Between ASCII strings, `strings.EqualFold` means equal after
lowering. -/
theorem eqFold_eq_of_ascii (a b : String) (ha : strIsAscii a = true)
    (hb : strIsAscii b = true) (h : eqFold a b = true) :
    strToLower a = strToLower b := by
  unfold eqFold at h
  rw [beq_iff_eq] at h
  unfold strIsAscii at ha hb
  rw [List.all_eq_true] at ha hb
  have hal : ∀ c ∈ a.data, c.toNat < 128 := fun c hc => by simpa using ha c hc
  have hbl : ∀ c ∈ b.data, c.toNat < 128 := fun c hc => by simpa using hb c hc
  unfold strToLower
  exact congrArg String.mk
    (by rw [← map_foldChar_ascii a.data hal, ← map_foldChar_ascii b.data hbl, h])

/-! ## Claim theorems -/

/-- C7: for every document in which the top-level `template` key is
absent, `ValidateTemplate` returns false with the missing-template-key
message, independent of every other field and of the schema
environment. -/
theorem validate_missing_template_key (env : Option SchemaEnv) (d : StrMap)
    (h : mapFind d "template" = none) :
    ValidateTemplate env d = (false, "Missing template key") := by
  unfold ValidateTemplate
  rw [h]

/-- Witness for C7 at a concrete document carrying an unrelated field. -/
theorem validate_missing_template_key_witness :
    mapFind [("other", Value.vStr "x")] "template" = none ∧
    ValidateTemplate none [("other", Value.vStr "x")] = (false, "Missing template key") :=
  ⟨rfl, validate_missing_template_key none [("other", Value.vStr "x")] rfl⟩

/-- C1: a document that passes the four structural checks (which is
exactly what `ValidateTemplate` with no schema environment decides) is
accepted under every schema environment — fetch failures, evaluation
errors and reported violations included — and the Bool verdict never
depends on the schema environment, only the message does. -/
theorem structural_pass_schema_never_rejects (d : StrMap) (e : SchemaEnv)
    (h : (ValidateTemplate none d).1 = true) :
    (ValidateTemplate (some e) d).1 = true ∧
    ∀ env1 env2 : Option SchemaEnv, (ValidateTemplate env1 d).1 = (ValidateTemplate env2 d).1 := by
  refine ⟨?_, ?_⟩
  · rw [validate_fst_indep (some e) d]
    exact h
  · intro env1 env2
    rw [validate_fst_indep env1 d, validate_fst_indep env2 d]

/-- Witness for C1: a concrete structurally valid document, checked
against an environment whose schema fetch fails. -/
theorem structural_pass_schema_never_rejects_witness :
    (ValidateTemplate none pipelineDoc).1 = true ∧
    (ValidateTemplate (some fetchFailEnv) pipelineDoc).1 = true :=
  ⟨rfl, (structural_pass_schema_never_rejects pipelineDoc fetchFailEnv rfl).1⟩

/-- C3 counterexample: "pIPELINE" is a case-insensitive variant of
"pipeline" (witnessed by `eqFold`), yet `schemaTypeNormalize` does not
map it to the canonical lowercase key: the `switch` only recognizes the
exact spellings listed in the source. -/
theorem schemaTypeNormalize_mixed_case_cex :
    eqFold "pIPELINE" "pipeline" = true ∧
    schemaTypeNormalize "pIPELINE" ≠ "pipeline" ∧
    schemaTypeNormalize "pIPELINE" ≠ schemaTypeNormalize "PIPELINE" := by
  refine ⟨rfl, by decide, by decide⟩

/-- C3 (amended): `schemaTypeNormalize` maps each recognized spelling —
the canonical lowercase name itself, the capitalized and the all-caps
spellings, and "Step Group" — to the canonical lowercase key, and
`GetSchema` applies this normalization before its cache lookup and
fetch, so each recognized spelling uses the same cache key as its
canonical form. -/
theorem schemaTypeNormalize_recognized (fetch : String → Except String Value)
    (cache : SchemaCache) :
    schemaTypeNormalize "pipeline" = "pipeline" ∧
    schemaTypeNormalize "Pipeline" = "pipeline" ∧
    schemaTypeNormalize "PIPELINE" = "pipeline" ∧
    schemaTypeNormalize "stage" = "stage" ∧
    schemaTypeNormalize "Stage" = "stage" ∧
    schemaTypeNormalize "STAGE" = "stage" ∧
    schemaTypeNormalize "stepgroup" = "stepgroup" ∧
    schemaTypeNormalize "StepGroup" = "stepgroup" ∧
    schemaTypeNormalize "STEPGROUP" = "stepgroup" ∧
    schemaTypeNormalize "Step Group" = "stepgroup" ∧
    schemaTypeNormalize "step" = "step" ∧
    schemaTypeNormalize "Step" = "step" ∧
    schemaTypeNormalize "STEP" = "step" ∧
    GetSchema fetch cache "Pipeline" = GetSchema fetch cache "pipeline" ∧
    GetSchema fetch cache "PIPELINE" = GetSchema fetch cache "pipeline" ∧
    GetSchema fetch cache "Stage" = GetSchema fetch cache "stage" ∧
    GetSchema fetch cache "STAGE" = GetSchema fetch cache "stage" ∧
    GetSchema fetch cache "StepGroup" = GetSchema fetch cache "stepgroup" ∧
    GetSchema fetch cache "STEPGROUP" = GetSchema fetch cache "stepgroup" ∧
    GetSchema fetch cache "Step Group" = GetSchema fetch cache "stepgroup" ∧
    GetSchema fetch cache "Step" = GetSchema fetch cache "step" ∧
    GetSchema fetch cache "STEP" = GetSchema fetch cache "step" := by
  repeat' constructor

/-- The inner mapping of a document whose `versionLabel` is the YAML
integer literal `2` (which `yaml.Unmarshal` delivers as a Go `int`,
not a `float64`). -/
def intVersionObj : StrMap :=
  [("name", Value.vStr "Numeric Version Template"), ("type", Value.vStr "Pipeline"),
   ("versionLabel", Value.vInt 2)]

/-- A document whose `template.versionLabel` is the integer `2`. -/
def intVersionDoc : StrMap :=
  [("template", Value.vMap intVersionObj)]

/-- C4 counterexample: the claim says a numeric `versionLabel` of `2`
extracts to "2.0", but the source only coerces the `float64` case; the
Go `int` produced for the YAML literal `2` fails the type assertion and
the placeholder "1.0.0" survives. -/
theorem extract_version_int_cex :
    (ExtractMetadata intVersionDoc).toOption.map TemplateMetadata.Version = some "1.0.0" ∧
    some "1.0.0" ≠ some "2.0" := by
  refine ⟨rfl, by decide⟩

/-- C4 (amended): a string `versionLabel` passes through verbatim and a
float-typed numeric one is coerced by one-decimal formatting (`1.0` to
"1.0", `2.0` to "2.0"); an integer-typed numeric value is not coerced —
it leaves the placeholder "1.0.0". -/
theorem extract_version_coercion (d tm : StrMap)
    (h : mapFind d "template" = some (Value.vMap tm))
    (md : TemplateMetadata) (hmd : ExtractMetadata d = Except.ok md) :
    (mapFind tm "versionLabel" = some (Value.vFloat 1) → md.Version = "1.0") ∧
    (mapFind tm "versionLabel" = some (Value.vFloat 2) → md.Version = "2.0") ∧
    (∀ ver : String, mapFind tm "versionLabel" = some (Value.vStr ver) → md.Version = ver) ∧
    (∀ n : Int, mapFind tm "versionLabel" = some (Value.vInt n) → md.Version = "1.0.0") := by
  rw [extract_ok d tm h] at hmd
  cases hmd
  refine ⟨?_, ?_, ?_, ?_⟩
  · intro hv
    dsimp only [extractFrom]
    rw [hv]
    rfl
  · intro hv
    dsimp only [extractFrom]
    rw [hv]
    rfl
  · intro ver hv
    dsimp only [extractFrom]
    rw [hv]
  · intro n hv
    dsimp only [extractFrom]
    rw [hv]

/-- The inner mapping of a document whose `versionLabel` is the float
`1.0`. -/
def floatVersionObj : StrMap :=
  [("name", Value.vStr "Numeric Version Template"), ("type", Value.vStr "Pipeline"),
   ("versionLabel", Value.vFloat 1)]

/-- A document whose `template.versionLabel` is the float `1.0`. -/
def floatVersionDoc : StrMap :=
  [("template", Value.vMap floatVersionObj)]

/-- The record extracted from `floatVersionDoc`. -/
def floatVersionMd : TemplateMetadata :=
  extractFrom floatVersionDoc floatVersionObj

/-- Witness for the amended C4 at the float `1.0`. -/
theorem extract_version_coercion_witness :
    floatVersionMd.Version = "1.0" :=
  (extract_version_coercion floatVersionDoc floatVersionObj rfl floatVersionMd rfl).1 rfl

/-- C5: for every document with a `template` mapping, extraction
succeeds (never an error), and the `Tags` field of the record is the
concrete empty sequence whenever the `tags` key is absent, is an empty
mapping, or holds any non-sequence value. -/
theorem extract_tags_empty (d tm : StrMap)
    (h : mapFind d "template" = some (Value.vMap tm)) :
    (∃ md, ExtractMetadata d = Except.ok md) ∧
    (∀ md : TemplateMetadata, ExtractMetadata d = Except.ok md →
      (mapFind tm "tags" = none → md.Tags = []) ∧
      (mapFind tm "tags" = some (Value.vMap []) → md.Tags = []) ∧
      (∀ v : Value, mapFind tm "tags" = some v → v.asSeq = none → md.Tags = [])) := by
  refine ⟨⟨extractFrom d tm, extract_ok d tm h⟩, ?_⟩
  intro md hmd
  rw [extract_ok d tm h] at hmd
  cases hmd
  refine ⟨?_, ?_, ?_⟩
  · intro hv
    dsimp only [extractFrom]
    rw [hv]
  · intro hv
    dsimp only [extractFrom]
    rw [hv]
  · intro v hv hseq
    dsimp only [extractFrom]
    cases v
    case vSeq xs => exact Option.noConfusion hseq
    all_goals rw [hv]

/-- A document whose `template` mapping has `tags` bound to an empty
mapping. -/
def emptyTagsObj : StrMap :=
  [("name", Value.vStr "Empty Tags Template"), ("type", Value.vStr "Pipeline"),
   ("tags", Value.vMap [])]

/-- The document around `emptyTagsObj`. -/
def emptyTagsDoc : StrMap :=
  [("template", Value.vMap emptyTagsObj)]

/-- The record extracted from `emptyTagsDoc`. -/
def emptyTagsMd : TemplateMetadata :=
  extractFrom emptyTagsDoc emptyTagsObj

/-- Witness for C5 at a concrete document with empty-mapping `tags`. -/
theorem extract_tags_empty_witness :
    emptyTagsMd.Tags = [] :=
  ((extract_tags_empty emptyTagsDoc emptyTagsObj rfl).2 emptyTagsMd rfl).2.1 rfl

/-- C6: `ExtractMetadata` is a pure function of the document — two
calls on the same document return field-for-field identical records. -/
theorem extract_idempotent (d : StrMap) :
    ExtractMetadata d = ExtractMetadata d ∧
    ∀ md1 md2 : TemplateMetadata,
      ExtractMetadata d = Except.ok md1 → ExtractMetadata d = Except.ok md2 →
      md1.Name = md2.Name ∧ md1.Identifier = md2.Identifier ∧ md1.«Type» = md2.«Type» ∧
      md1.Description = md2.Description ∧ md1.Author = md2.Author ∧
      md1.Version = md2.Version ∧ md1.Tags = md2.Tags ∧ md1.Variables = md2.Variables ∧
      md1.Parameters = md2.Parameters ∧ md1.Examples = md2.Examples ∧
      md1.RawTemplate = md2.RawTemplate := by
  refine ⟨rfl, ?_⟩
  intro md1 md2 h1 h2
  rw [h1] at h2
  cases h2
  exact ⟨rfl, rfl, rfl, rfl, rfl, rfl, rfl, rfl, rfl, rfl, rfl⟩

/-- Witness for C6 at a concrete document. -/
theorem extract_idempotent_witness :
    pipelineMd.Name = pipelineMd.Name ∧ pipelineMd.Identifier = pipelineMd.Identifier ∧
    pipelineMd.«Type» = pipelineMd.«Type» ∧ pipelineMd.Description = pipelineMd.Description ∧
    pipelineMd.Author = pipelineMd.Author ∧ pipelineMd.Version = pipelineMd.Version ∧
    pipelineMd.Tags = pipelineMd.Tags ∧ pipelineMd.Variables = pipelineMd.Variables ∧
    pipelineMd.Parameters = pipelineMd.Parameters ∧ pipelineMd.Examples = pipelineMd.Examples ∧
    pipelineMd.RawTemplate = pipelineMd.RawTemplate :=
  (extract_idempotent pipelineDoc).2 pipelineMd pipelineMd rfl rfl

/-- C10: when `author` is absent or not a string and `versionLabel` is
absent or neither a string nor a numeric, the extracted record carries
the non-empty placeholders "Harness" and "1.0.0". -/
theorem extract_author_version_placeholders (d tm : StrMap)
    (h : mapFind d "template" = some (Value.vMap tm))
    (ha : ∀ v : Value, mapFind tm "author" = some v → v.asStr = none)
    (hv : ∀ v : Value, mapFind tm "versionLabel" = some v →
      v.asStr = none ∧ v.asFloat = none ∧ v.asInt = none)
    (md : TemplateMetadata) (hmd : ExtractMetadata d = Except.ok md) :
    md.Author = "Harness" ∧ md.Version = "1.0.0" ∧ "Harness" ≠ "" ∧ "1.0.0" ≠ "" := by
  rw [extract_ok d tm h] at hmd
  cases hmd
  refine ⟨?_, ?_, by decide, by decide⟩
  · dsimp only [extractFrom]
    cases hfa : mapFind tm "author" with
    | none => rfl
    | some v =>
      have hva := ha v hfa
      cases v <;> simp [Value.asStr] at hva ⊢
  · dsimp only [extractFrom]
    cases hfv : mapFind tm "versionLabel" with
    | none => rfl
    | some v =>
      have hvv := hv v hfv
      cases v <;> simp [Value.asStr, Value.asFloat, Value.asInt] at hvv ⊢

/-- The record extracted from `emptyTemplateDoc`. -/
theorem extract_author_version_placeholders_witness :
    emptyTemplateMd.Author = "Harness" ∧ emptyTemplateMd.Version = "1.0.0" :=
  have t := extract_author_version_placeholders emptyTemplateDoc [] rfl
    (fun _ hc => Option.noConfusion hc) (fun _ hc => Option.noConfusion hc)
    emptyTemplateMd rfl
  ⟨t.1, t.2.1⟩

/-- A filesystem whose input path is a plain file; the per-file oracles
are never consulted for the C8 scenario. -/
def singleFileFS : FileSys :=
  { stat := fun _ => StatResult.file,
    walkEntries := fun _ => Except.ok [],
    readAndParse := fun _ => Except.error "unused" }

/-- C8: a single-file input path without a recognized template
extension makes `ProcessAllTemplates` fail outright with the
descriptive error, so no metadata record is ever returned. -/
theorem process_all_non_yaml_file (fs : FileSys) (env : Option SchemaEnv) (p : String)
    (hstat : fs.stat p = StatResult.file)
    (hyaml : hasSuffix p ".yaml" = false) (hyml : hasSuffix p ".yml" = false) :
    ProcessAllTemplates fs env p = Except.error ("specified file is not a YAML file: " ++ p) ∧
    ∀ ms : List TemplateMetadata, ProcessAllTemplates fs env p ≠ Except.ok ms := by
  have herr : ProcessAllTemplates fs env p
      = Except.error ("specified file is not a YAML file: " ++ p) := by
    unfold ProcessAllTemplates
    rw [hstat, hyaml, hyml]
    rfl
  refine ⟨herr, ?_⟩
  intro ms hok
  rw [herr] at hok
  exact Except.noConfusion hok

/-- Witness for C8 at the concrete path "notes.txt". -/
theorem process_all_non_yaml_file_witness :
    ProcessAllTemplates singleFileFS none "notes.txt"
      = Except.error "specified file is not a YAML file: notes.txt" :=
  (process_all_non_yaml_file singleFileFS none "notes.txt" rfl rfl rfl).1

/-- A structurally valid document whose `type` is "ſtage": the long s
(U+017F) is fold-equivalent to s under Unicode simple case folding, so
`strings.EqualFold` matches it against "stage". -/
def longSDoc : StrMap :=
  [("template", Value.vMap [("name", Value.vStr "Long S"), ("type", Value.vStr "ſtage")])]

/-- C2 counterexample: the document `longSDoc` is accepted by
`ValidateTemplate` (its type "ſtage" folds to "stage"), yet the
extracted `Type` is "ſtage" — `strings.ToLower` leaves the already
lowercase ſ fixed — which is not in the closed type set. -/
theorem validated_type_canonical_cex :
    (ValidateTemplate none longSDoc).1 = true ∧
    (ExtractMetadata longSDoc).toOption.map TemplateMetadata.«Type» = some "ſtage" ∧
    "ſtage" ∉ ValidTemplateTypes := by
  refine ⟨rfl, rfl, by decide⟩

/-- C2 (amended): every document accepted by `ValidateTemplate` (under
any schema environment) whose `template.type` string contains only
ASCII characters extracts to a record whose `Type` field is a lowercase
string and exactly one of the closed type set. -/
theorem validated_type_ascii_canonical (env : Option SchemaEnv) (d : StrMap)
    (hval : (ValidateTemplate env d).1 = true)
    (md : TemplateMetadata) (hmd : ExtractMetadata d = Except.ok md)
    (tm : StrMap) (typeStr : String)
    (hfind : mapFind d "template" = some (Value.vMap tm))
    (htype : mapFind tm "type" = some (Value.vStr typeStr))
    (hascii : strIsAscii typeStr = true) :
    md.«Type» ∈ ValidTemplateTypes ∧ strToLower md.«Type» = md.«Type» := by
  rw [validate_fst_indep env d] at hval
  unfold ValidateTemplate at hval
  rw [hfind] at hval
  dsimp only at hval
  split at hval
  · simp at hval
  split at hval
  · simp at hval
  split at hval
  case h_2 => simp at hval
  case h_1 typeStr2 heq =>
  split at hval
  case isFalse => simp at hval
  case isTrue hany =>
  rw [htype] at heq
  simp only [Option.some.injEq, Value.vStr.injEq] at heq
  subst heq
  rw [extract_ok d tm hfind] at hmd
  cases hmd
  dsimp only [extractFrom]
  rw [htype]
  dsimp only
  rw [List.any_eq_true] at hany
  rcases hany with ⟨t, ht, hf⟩
  simp only [ValidTemplateTypes, List.mem_cons, List.not_mem_nil, or_false] at ht
  rcases ht with rfl | rfl | rfl | rfl <;>
    rw [eqFold_eq_of_ascii typeStr _ hascii (by decide) hf] <;>
    exact ⟨by decide, by decide⟩

/-- Witness for the amended C2: the concrete document `pipelineDoc`,
whose ASCII `type` is spelled "Pipeline", extracts to the canonical
lowercase "pipeline". -/
theorem validated_type_ascii_canonical_witness :
    pipelineMd.«Type» ∈ ValidTemplateTypes ∧ strToLower pipelineMd.«Type» = pipelineMd.«Type» :=
  validated_type_ascii_canonical none pipelineDoc rfl pipelineMd rfl
    pipelineObj "Pipeline" rfl rfl rfl

end TemplateDocGen
